import Mathlib

/-!
Verification of the python-brlcad post-install script
(`brlcad/install/post_install.py`).

The script orchestrates an external C-header-to-binding generator
(ctypesgencore) over a list of BRL-CAD sub-libraries: it decides between a
cached reinstall and a fresh generation, cleans up stale output directories,
runs the generator once per library while threading already-known symbol
names between passes, rewrites an aggregating `__init__.py` manifest after
every pass, and finally copies the output directory to a cache location.

The embedding below models the script over a flat filesystem (a list of
existing directories plus an association list from (directory, filename) to
file content, most recent write first).  The external generator pipeline and
the `dir()` symbol harvesting of freshly loaded modules are abstracted as
function parameters; configuration loading (`load_config`,
`load_ctypesgen_options`) is abstracted as the explicit arguments of `main`
(a cache flag, a list of per-library options and a version string), matching
the specification's description of the configuration source as a pure
provider of options with no filesystem effects.
-/

set_option maxHeartbeats 1000000

namespace PostInstall

/-- Path of the bindings output directory, modelling
`os.path.join(library_path, "_bindings")` for the deployed layout where
`library_path` is the installation prefix handed to `main`. -/
def bindings_path : String := "lib/_bindings"

/-- Path of the stray in-tree bindings directory removed during cleanup,
modelling `os.path.join(os.path.dirname(__file__), "_bindings")`. -/
def local_bindings_path : String := "lib/brlcad/install/_bindings"

/-- Path of the cache directory, modelling
`os.path.join(os.path.dirname(__file__), "..", "_bindings")`. -/
def cached_bindings_path : String := "lib/brlcad/install/../_bindings"

/-- Python exceptions the script can raise or catch: `OSError` from
directory operations, `IOError` from opening a file in a missing directory,
`KeyError` from `symbol_map[module]`, and any error raised by the external
generator pipeline. -/
inductive PyErr where
  | osError : String → PyErr
  | ioError : String → PyErr
  | keyError : String → PyErr
  | genError : String → PyErr
deriving Repr, DecidableEq

/-- Flat model of the filesystem: a list of existing directories and an
association list from (directory, filename) to file content.  Earlier
entries shadow later ones, so lookups read the most recent write. -/
structure FS where
  dirs : List String
  files : List ((String × String) × String)
deriving Repr, DecidableEq

/-- Whether a directory exists, modelling `os.path.isdir`. -/
def FS.dirExists (fs : FS) (d : String) : Bool := fs.dirs.contains d

/-- Content of file `f` in directory `d`, when present. -/
def FS.fileContent (fs : FS) (d f : String) : Option String :=
  (fs.files.find? (fun e => e.1.1 == d && e.1.2 == f)).map (·.2)

/-- Models `os.makedirs`: fails with `OSError` when the directory already
exists. -/
def FS.makedirs (fs : FS) (d : String) : Except PyErr FS :=
  if fs.dirExists d then .error (.osError d)
  else .ok { fs with dirs := d :: fs.dirs }

/-- Models `shutil.rmtree`: removes the directory and every file inside it;
raises `OSError` when the directory does not exist. -/
def FS.rmtree (fs : FS) (d : String) : Except PyErr FS :=
  if fs.dirExists d then
    .ok { dirs := fs.dirs.erase d, files := fs.files.filter (fun e => e.1.1 != d) }
  else .error (.osError d)

/-- Overwrite (or create) a file inside an existing directory. -/
def FS.setFile (fs : FS) (d f content : String) : FS :=
  { fs with files := ((d, f), content) :: fs.files }

/-- Models `open(path, "w").write(...)`: raises `IOError` when the
containing directory is missing. -/
def FS.writeFile (fs : FS) (d f content : String) : Except PyErr FS :=
  if fs.dirExists d then .ok (fs.setFile d f content)
  else .error (.ioError (d ++ "/" ++ f))

/-- Models `shutil.copytree`: fails when the source is missing or the
destination already exists; otherwise creates the destination directory and
copies every file of the source into it. -/
def FS.copytree (fs : FS) (src dst : String) : Except PyErr FS :=
  if fs.dirExists src then
    if fs.dirExists dst then .error (.osError dst)
    else .ok { dirs := dst :: fs.dirs,
               files := ((fs.files.filter (fun e => e.1.1 == src)).map
                 (fun e => ((dst, e.1.2), e.2))) ++ fs.files }
  else .error (.osError src)

/-- Per-library ctypesgen options as produced by `load_ctypesgen_options`:
library name, header list, output file name (a name inside the bindings
directory), the declared dependency modules, and the `other_known_names`
list which `main` overwrites before invoking the generator. -/
structure LibOptions where
  brlcad_lib_name : String
  headers : List String
  output : String
  modules : List String
  other_known_names : List String
deriving Repr, DecidableEq

/-- Models the `symbol_map` dict: library name to the list of names the
library's generated module defines. -/
abbrev SymbolMap := List (String × List String)

/-- Dictionary lookup in the symbol map (first match wins, matching the
prepend-on-insert representation used below). -/
def lookupSym (m : SymbolMap) (k : String) : Option (List String) :=
  (m.find? (fun e => e.1 == k)).map (·.2)

/-- Models the `other_known_names` accumulation loop of `main`:
`symbol_map[module]` raises `KeyError` at the first module without an
entry, otherwise the symbol lists are concatenated in module order. -/
def collectKnownNames (m : SymbolMap) : List String → Except PyErr (List String)
  | [] => .ok []
  | mod :: rest =>
    match lookupSym m mod with
    | none => .error (.keyError mod)
    | some syms =>
      match collectKnownNames m rest with
      | .error e => .error e
      | .ok tail => .ok (syms ++ tail)

/-- The version marker constant inserted at the head of the export list. -/
def versionName : String := "BRLCAD_VERSION"

/-- Models `library_names.insert(0, "BRLCAD_VERSION")` guarded by the
membership test in `generate_init_file`; the in-place mutation of the
caller's list is modelled by threading the returned list back into
`main`'s accumulator. -/
def addVersionName (names : List String) : List String :=
  if names.contains versionName then names else versionName :: names

/-- Models `repr` of a Python string (quotes only; the configured version
strings contain no characters needing escapes). -/
def pyRepr (s : String) : String := "'" ++ s ++ "'"

/-- Models `json.dumps` of a list of strings. -/
def jsonStringList (names : List String) : String :=
  "[" ++ String.intercalate ", " (names.map (fun n => "\"" ++ n ++ "\"")) ++ "]"

/-- The `__init__.py` contents built by `generate_init_file`. -/
def initContents (names : List String) (version : String) : String :=
  "from distutils.version import StrictVersion\n\n" ++
  "BRLCAD_VERSION = " ++ pyRepr version ++ "\n" ++
  "__all__ = " ++ jsonStringList names ++ "\n"

/-- Models `generate_init_file`: mutates `library_names` (the mutated list
is the first component of the result) and writes `__init__.py` into the
bindings directory. -/
def generate_init_file (fs : FS) (library_names : List String) (brlcad_version : String) :
    List String × Except PyErr FS :=
  let names := addVersionName library_names
  (names, fs.writeFile bindings_path "__init__.py" (initContents names brlcad_version))

/-- Models `try: shutil.rmtree(d) except Exception: pass`. -/
def FS.removeIfPresent (fs : FS) (d : String) : FS :=
  match fs.rmtree d with
  | .ok fs1 => fs1
  | .error _ => fs

/-- Models `cleanup_bindings_dir`: try `makedirs(bindings_path)`, and on
`OSError` delete the pre-existing directory with an uncaught `rmtree`; then
best-effort removal of the local and cached bindings directories. -/
def cleanup_bindings_dir (fs : FS) : Except PyErr FS :=
  match fs.makedirs bindings_path with
  | .ok fs1 =>
      .ok ((fs1.removeIfPresent local_bindings_path).removeIfPresent cached_bindings_path)
  | .error _ =>
      match fs.rmtree bindings_path with
      | .error e => .error e
      | .ok fs1 =>
          .ok ((fs1.removeIfPresent local_bindings_path).removeIfPresent cached_bindings_path)

/-- State of `main`'s generation loop, plus observational traces: `calls`
records every generator invocation (with the options exactly as passed,
`other_known_names` filled in), `initWrites` records the export list of
every completed `__init__.py` write, and `error` holds the first uncaught
exception (subsequent iterations are skipped once it is set, modelling the
abort of the loop). -/
structure RunState where
  fs : FS
  symbolMap : SymbolMap
  generated : List String
  calls : List LibOptions
  initWrites : List (List String)
  error : Option PyErr
deriving Repr, DecidableEq

/-- Fresh run state over a filesystem, with an optional pending error. -/
def initState (fs : FS) (e : Option PyErr) : RunState :=
  { fs := fs, symbolMap := [], generated := [], calls := [], initWrites := [], error := e }

/-- One iteration of `main`'s loop over `ctypesgen_library_options`.
`gen` abstracts the external three-stage pipeline of `generate_wrapper`
(parse, process, print), returning the produced wrapper source or failing;
`dirOf` abstracts `dir(imp.load_source(...))` applied to the produced
wrapper source. -/
def processLibrary (gen : LibOptions → Option String) (dirOf : String → List String)
    (version : String) (s : RunState) (opts : LibOptions) : RunState :=
  match s.error with
  | some _ => s
  | none =>
    match collectKnownNames s.symbolMap opts.modules with
    | .error e => { s with error := some e }
    | .ok okn =>
      let opts2 := { opts with other_known_names := okn }
      let s2 := { s with calls := s.calls ++ [opts2] }
      match gen opts2 with
      | none => { s2 with error := some (.genError opts.brlcad_lib_name) }
      | some content =>
        match s2.fs.writeFile bindings_path opts.output content with
        | .error e => { s2 with error := some e }
        | .ok fs1 =>
          match generate_init_file fs1 (s.generated ++ [opts.brlcad_lib_name]) version with
          | (names2, .error e) => { s2 with fs := fs1, generated := names2, error := some e }
          | (names2, .ok fs2) =>
            { s2 with
              fs := fs2,
              generated := names2,
              initWrites := s.initWrites ++ [names2],
              symbolMap := (opts.brlcad_lib_name, dirOf content) :: s.symbolMap }

/-- Models `main`: the cached-reinstall branch, or cleanup followed by the
per-library generation loop and the final caching copy.  `cache_bindings`
abstracts the cached-reinstall configuration flag; `libs` and `version`
abstract the result of `load_ctypesgen_options`. -/
def main (cache_bindings : Bool) (libs : List LibOptions) (version : String)
    (gen : LibOptions → Option String) (dirOf : String → List String)
    (fs : FS) : RunState :=
  if cache_bindings && fs.dirExists cached_bindings_path then
    match fs.copytree cached_bindings_path bindings_path with
    | .error e => initState fs (some e)
    | .ok fs1 => initState fs1 none
  else
    match cleanup_bindings_dir fs with
    | .error e => initState fs (some e)
    | .ok fs1 =>
      let s := List.foldl (processLibrary gen dirOf version) (initState fs1 none) libs
      match s.error with
      | some _ => s
      | none =>
        match s.fs.copytree bindings_path cached_bindings_path with
        | .error e => { s with error := some e }
        | .ok fs2 => { s with fs := fs2 }

/-! Basic lemmas about the filesystem model. -/

theorem FS.setFile_dirs (fs : FS) (d f c : String) : (fs.setFile d f c).dirs = fs.dirs := rfl

theorem FS.dirExists_setFile (fs : FS) (d f c x : String) :
    (fs.setFile d f c).dirExists x = fs.dirExists x := rfl

theorem FS.fileContent_setFile (fs : FS) (d f c d2 f2 : String) :
    (fs.setFile d f c).fileContent d2 f2 =
      if d = d2 ∧ f = f2 then some c else fs.fileContent d2 f2 := by
  unfold FS.setFile FS.fileContent
  by_cases h : d = d2 ∧ f = f2
  · obtain ⟨rfl, rfl⟩ := h
    simp [List.find?]
  · rw [if_neg h]
    have hb : (d == d2 && f == f2) = false := by
      by_contra hc
      rw [Bool.not_eq_false, Bool.and_eq_true, beq_iff_eq, beq_iff_eq] at hc
      exact h hc
    simp [List.find?, hb]

theorem FS.fileContent_setFile_same (fs : FS) (d f c : String) :
    (fs.setFile d f c).fileContent d f = some c := by
  rw [FS.fileContent_setFile, if_pos ⟨rfl, rfl⟩]

theorem FS.fileContent_setFile_other (fs : FS) (d f c d2 f2 : String)
    (h : ¬ (d = d2 ∧ f = f2)) :
    (fs.setFile d f c).fileContent d2 f2 = fs.fileContent d2 f2 := by
  rw [FS.fileContent_setFile, if_neg h]

theorem FS.writeFile_eq_ok {fs fs2 : FS} {d f c : String}
    (h : fs.writeFile d f c = .ok fs2) :
    fs2 = fs.setFile d f c ∧ fs.dirExists d = true := by
  unfold FS.writeFile at h
  by_cases hd : fs.dirExists d
  · rw [if_pos hd] at h
    exact ⟨(Except.ok.injEq _ _ ▸ h.symm : _ = _).symm ▸ rfl, hd⟩
  · rw [if_neg hd] at h
    exact absurd h (by simp)

theorem FS.writeFile_eq_error {fs : FS} {d f c : String} {e : PyErr}
    (h : fs.writeFile d f c = .error e) :
    e = .ioError (d ++ "/" ++ f) ∧ fs.dirExists d = false := by
  unfold FS.writeFile at h
  by_cases hd : fs.dirExists d
  · rw [if_pos hd] at h
    exact absurd h (by simp)
  · rw [if_neg hd] at h
    simp only [Except.error.injEq] at h
    exact ⟨h.symm, by simpa using hd⟩

theorem FS.writeFile_of_dirExists {fs : FS} {d : String} (f c : String)
    (h : fs.dirExists d = true) :
    fs.writeFile d f c = .ok (fs.setFile d f c) := by
  unfold FS.writeFile
  rw [if_pos h]

theorem find?_filter_comm {α : Type} (l : List α) (p q : α → Bool) :
    (l.filter q).find? p = l.find? (fun a => q a && p a) := by
  induction l with
  | nil => rfl
  | cons a l ih =>
    simp only [List.filter_cons]
    cases hq : q a <;> cases hp : p a <;> simp [List.find?, hq, hp, ih]

theorem find?_map_comm {α β : Type} (l : List α) (g : α → β) (p : β → Bool) :
    (l.map g).find? p = (l.find? (fun a => p (g a))).map g := by
  induction l with
  | nil => rfl
  | cons a l ih =>
    simp only [List.map_cons, List.find?]
    cases hp : p (g a) <;> simp [hp, ih]

theorem FS.copytree_eq_ok {fs : FS} {src dst : String}
    (hsrc : fs.dirExists src = true) (hdst : fs.dirExists dst = false) :
    fs.copytree src dst =
      .ok { dirs := dst :: fs.dirs,
            files := ((fs.files.filter (fun e => e.1.1 == src)).map
              (fun e => ((dst, e.1.2), e.2))) ++ fs.files } := by
  unfold FS.copytree
  rw [if_pos hsrc, if_neg (by simp [hdst])]

theorem FS.copytree_ok_inv {fs fs2 : FS} {src dst : String}
    (h : fs.copytree src dst = .ok fs2) :
    fs.dirExists src = true ∧ fs.dirExists dst = false ∧
    fs2 = { dirs := dst :: fs.dirs,
            files := ((fs.files.filter (fun e => e.1.1 == src)).map
              (fun e => ((dst, e.1.2), e.2))) ++ fs.files } := by
  unfold FS.copytree at h
  by_cases hsrc : fs.dirExists src
  · by_cases hdst : fs.dirExists dst
    · rw [if_pos hsrc, if_pos hdst] at h
      exact absurd h (by simp)
    · rw [if_pos hsrc, if_neg hdst] at h
      simp only [Except.ok.injEq] at h
      exact ⟨hsrc, by simpa using hdst, h.symm⟩
  · rw [if_neg hsrc] at h
    exact absurd h (by simp)

theorem find?_copy (files : List ((String × String) × String)) (src dst f : String) :
    ((files.filter (fun e => e.1.1 == src)).map (fun e => ((dst, e.1.2), e.2))).find?
        (fun e => e.1.1 == dst && e.1.2 == f)
      = (files.find? (fun e => e.1.1 == src && e.1.2 == f)).map
          (fun e => ((dst, e.1.2), e.2)) := by
  induction files with
  | nil => rfl
  | cons a l ih =>
    simp only [List.filter_cons]
    cases h1 : (a.1.1 == src)
    · simp [List.find?, h1, ih]
    · cases h2 : (a.1.2 == f) <;> simp [List.find?, h1, h2, ih]

theorem FS.fileContent_copytree_dst {fs fs2 : FS} {src dst : String}
    (h : fs.copytree src dst = .ok fs2) (hnone : ∀ g, fs.fileContent dst g = none)
    (f : String) :
    fs2.fileContent dst f = fs.fileContent src f := by
  obtain ⟨-, -, rfl⟩ := FS.copytree_ok_inv h
  have h2 := hnone f
  unfold FS.fileContent at h2 ⊢
  rw [List.find?_append, find?_copy]
  rcases hfind : fs.files.find? (fun e => e.1.1 == src && e.1.2 == f) with - | e
  · rw [hfind]
    simp only [Option.map_none', Option.none_or]
    exact h2
  · rw [hfind]
    simp

theorem FS.fileContent_copytree_other {fs fs2 : FS} {src dst : String}
    (h : fs.copytree src dst = .ok fs2) (d f : String) (hd : d ≠ dst) :
    fs2.fileContent d f = fs.fileContent d f := by
  obtain ⟨-, -, rfl⟩ := FS.copytree_ok_inv h
  unfold FS.fileContent
  rw [List.find?_append]
  have hcopies : (((fs.files.filter (fun e => e.1.1 == src)).map
      (fun e => ((dst, e.1.2), e.2))).find? (fun e => e.1.1 == d && e.1.2 == f)) = none := by
    rw [List.find?_eq_none]
    intro e hmem
    rw [List.mem_map] at hmem
    obtain ⟨e0, -, he⟩ := hmem
    subst he
    simp only [Bool.and_eq_true, beq_iff_eq]
    rintro ⟨rfl, -⟩
    exact hd rfl
  rw [hcopies, Option.none_or]

theorem FS.copytree_dirs {fs fs2 : FS} {src dst : String}
    (h : fs.copytree src dst = .ok fs2) : fs2.dirs = dst :: fs.dirs := by
  obtain ⟨-, -, rfl⟩ := FS.copytree_ok_inv h
  rfl

/-! Lemmas about the generation loop. -/

theorem generate_init_file_ok_inv {fs fs2 : FS} {names names2 : List String} {v : String}
    (h : generate_init_file fs names v = (names2, .ok fs2)) :
    names2 = addVersionName names ∧
    fs.dirExists bindings_path = true ∧
    fs2 = fs.setFile bindings_path "__init__.py" (initContents (addVersionName names) v) := by
  unfold generate_init_file at h
  have h1 : addVersionName names = names2 := congrArg Prod.fst h
  have h2 : fs.writeFile bindings_path "__init__.py" (initContents (addVersionName names) v)
      = Except.ok fs2 := congrArg Prod.snd h
  obtain ⟨h3, h4⟩ := FS.writeFile_eq_ok h2
  exact ⟨h1.symm, h4, h3⟩

theorem processLibrary_error {gen : LibOptions → Option String} {dirOf : String → List String}
    {version : String} {s : RunState} {opts : LibOptions} {e : PyErr}
    (h : s.error = some e) :
    processLibrary gen dirOf version s opts = s := by
  unfold processLibrary
  rw [h]

theorem foldl_processLibrary_error {gen : LibOptions → Option String}
    {dirOf : String → List String} {version : String} {s : RunState} {e : PyErr}
    (libs : List LibOptions) (h : s.error = some e) :
    List.foldl (processLibrary gen dirOf version) s libs = s := by
  induction libs with
  | nil => rfl
  | cons o l ih =>
    rw [List.foldl_cons, processLibrary_error h, ih]

theorem processLibrary_ok_eq {gen : LibOptions → Option String}
    {dirOf : String → List String} {version : String} {s : RunState} {opts : LibOptions}
    {okn : List String} {content : String}
    (hs : s.error = none)
    (hc : collectKnownNames s.symbolMap opts.modules = .ok okn)
    (hg : gen { opts with other_known_names := okn } = some content)
    (hd : s.fs.dirExists bindings_path = true) :
    processLibrary gen dirOf version s opts =
      { fs := ((s.fs.setFile bindings_path opts.output content).setFile bindings_path
            "__init__.py"
            (initContents (addVersionName (s.generated ++ [opts.brlcad_lib_name])) version)),
        symbolMap := (opts.brlcad_lib_name, dirOf content) :: s.symbolMap,
        generated := addVersionName (s.generated ++ [opts.brlcad_lib_name]),
        calls := s.calls ++ [{ opts with other_known_names := okn }],
        initWrites := s.initWrites ++
          [addVersionName (s.generated ++ [opts.brlcad_lib_name])],
        error := none } := by
  unfold processLibrary generate_init_file
  simp only [hs, hc, hg, FS.writeFile, FS.dirExists_setFile, hd, if_true]

theorem processLibrary_ok_inv {gen : LibOptions → Option String}
    {dirOf : String → List String} {version : String} {s : RunState} {opts : LibOptions}
    (hs : s.error = none)
    (hok : (processLibrary gen dirOf version s opts).error = none) :
    ∃ okn content,
      collectKnownNames s.symbolMap opts.modules = .ok okn ∧
      gen { opts with other_known_names := okn } = some content ∧
      s.fs.dirExists bindings_path = true := by
  rcases hc : collectKnownNames s.symbolMap opts.modules with e | okn
  · exfalso
    have : processLibrary gen dirOf version s opts = { s with error := some e } := by
      unfold processLibrary
      rw [hs, hc]
    rw [this] at hok
    exact Option.noConfusion hok
  · rcases hg : gen { opts with other_known_names := okn } with - | content
    · exfalso
      have : processLibrary gen dirOf version s opts =
          { s with calls := s.calls ++ [{ opts with other_known_names := okn }],
                   error := some (.genError opts.brlcad_lib_name) } := by
        unfold processLibrary
        rw [hs, hc]
        simp only [hg]
      rw [this] at hok
      exact Option.noConfusion hok
    · rcases hd : s.fs.dirExists bindings_path with - | -
      · exfalso
        have hw : s.fs.writeFile bindings_path opts.output content =
            .error (.ioError (bindings_path ++ "/" ++ opts.output)) := by
          unfold FS.writeFile
          rw [if_neg (by simp [hd])]
        have : processLibrary gen dirOf version s opts =
            { s with calls := s.calls ++ [{ opts with other_known_names := okn }],
                     error := some (.ioError (bindings_path ++ "/" ++ opts.output)) } := by
          unfold processLibrary
          rw [hs, hc]
          simp only [hg]
          rw [hw]
        rw [this] at hok
        exact Option.noConfusion hok
      · exact ⟨okn, content, rfl, hg, rfl⟩

theorem addVersionName_of_mem {names : List String} (h : versionName ∈ names) :
    addVersionName names = names := by
  simp [addVersionName, h]

theorem addVersionName_of_not_mem {names : List String} (h : versionName ∉ names) :
    addVersionName names = versionName :: names := by
  simp [addVersionName, h]

theorem processLibrary_fs_frame (gen : LibOptions → Option String)
    (dirOf : String → List String) (version : String) (s : RunState) (opts : LibOptions) :
    (processLibrary gen dirOf version s opts).fs.dirs = s.fs.dirs ∧
    (∀ d f, d ≠ bindings_path →
      (processLibrary gen dirOf version s opts).fs.fileContent d f = s.fs.fileContent d f) := by
  unfold processLibrary
  split
  · exact ⟨rfl, fun d f _ => rfl⟩
  · split
    · exact ⟨rfl, fun d f _ => rfl⟩
    · dsimp only
      split
      · exact ⟨rfl, fun d f _ => rfl⟩
      · split
        · exact ⟨rfl, fun d f _ => rfl⟩
        · rename_i fs1 hw
          obtain ⟨rfl, -⟩ := FS.writeFile_eq_ok hw
          split
          · rename_i names2 e hgif
            refine ⟨rfl, fun d f hd => ?_⟩
            rw [FS.fileContent_setFile_other]
            exact fun hc => hd hc.1.symm
          · rename_i names2 fs2 hgif
            obtain ⟨-, -, rfl⟩ := generate_init_file_ok_inv hgif
            refine ⟨rfl, fun d f hd => ?_⟩
            rw [FS.fileContent_setFile_other, FS.fileContent_setFile_other]
            · exact fun hc => hd hc.1.symm
            · exact fun hc => hd hc.1.symm

theorem foldl_fs_frame (gen : LibOptions → Option String) (dirOf : String → List String)
    (version : String) (libs : List LibOptions) :
    ∀ s : RunState,
    (List.foldl (processLibrary gen dirOf version) s libs).fs.dirs = s.fs.dirs ∧
    (∀ d f, d ≠ bindings_path →
      (List.foldl (processLibrary gen dirOf version) s libs).fs.fileContent d f
        = s.fs.fileContent d f) := by
  induction libs with
  | nil => exact fun s => ⟨rfl, fun d f _ => rfl⟩
  | cons o l ih =>
    intro s
    rw [List.foldl_cons]
    obtain ⟨hd1, hf1⟩ := processLibrary_fs_frame gen dirOf version s o
    obtain ⟨hd2, hf2⟩ := ih (processLibrary gen dirOf version s o)
    exact ⟨hd2.trans hd1, fun d f hd => (hf2 d f hd).trans (hf1 d f hd)⟩

/-- Characterization of a completed stretch of the generation loop, starting
from any state whose accumulator already carries the version marker and whose
manifest file is up to date: the accumulator grows by the library names in
order, the bindings directory gains exactly the output files of the processed
libraries, the manifest always reflects the full accumulator, and one
manifest write is recorded per processed library. -/
theorem loop_char (gen : LibOptions → Option String) (dirOf : String → List String)
    (version : String) :
    ∀ (libs : List LibOptions) (s : RunState),
    s.error = none →
    versionName ∈ s.generated →
    s.fs.fileContent bindings_path "__init__.py" = some (initContents s.generated version) →
    (List.foldl (processLibrary gen dirOf version) s libs).error = none →
    (List.foldl (processLibrary gen dirOf version) s libs).generated
        = s.generated ++ libs.map (fun o => o.brlcad_lib_name)
    ∧ (∀ f, ((List.foldl (processLibrary gen dirOf version) s libs).fs.fileContent
          bindings_path f).isSome = true ↔
        (f ∈ libs.map (fun o => o.output) ∨
          (s.fs.fileContent bindings_path f).isSome = true))
    ∧ (List.foldl (processLibrary gen dirOf version) s libs).fs.fileContent
          bindings_path "__init__.py"
        = some (initContents (s.generated ++ libs.map (fun o => o.brlcad_lib_name)) version)
    ∧ (List.foldl (processLibrary gen dirOf version) s libs).initWrites
        = s.initWrites ++ (List.range libs.length).map
            (fun k => s.generated ++ ((libs.take (k+1)).map (fun o => o.brlcad_lib_name))) := by
  intro libs
  induction libs with
  | nil =>
    intro s hs hv hman hok
    refine ⟨by simp, fun f => by simp, by simpa using hman, by simp⟩
  | cons o l ih =>
    intro s hs hv hman hok
    rw [List.foldl_cons] at hok
    have h1 : (processLibrary gen dirOf version s o).error = none := by
      rcases h : (processLibrary gen dirOf version s o).error with - | e
      · rfl
      · rw [foldl_processLibrary_error l h] at hok
        rw [h] at hok
        exact Option.noConfusion hok
    obtain ⟨okn, content, hc, hg, hd⟩ := processLibrary_ok_inv hs h1
    have hstep := @processLibrary_ok_eq gen dirOf version s o okn content hs hc hg hd
    have hgen1 : (processLibrary gen dirOf version s o).generated
        = s.generated ++ [o.brlcad_lib_name] := by
      rw [hstep]
      exact addVersionName_of_mem (by simp [hv])
    have hv1 : versionName ∈ (processLibrary gen dirOf version s o).generated := by
      rw [hgen1]
      simp [hv]
    have hman1 : (processLibrary gen dirOf version s o).fs.fileContent bindings_path
        "__init__.py" = some (initContents
          (processLibrary gen dirOf version s o).generated version) := by
      rw [hstep]
      simp only
      rw [FS.fileContent_setFile_same]
    have hinit1 : (processLibrary gen dirOf version s o).initWrites
        = s.initWrites ++ [s.generated ++ [o.brlcad_lib_name]] := by
      rw [hstep]
      simp only
      rw [addVersionName_of_mem (by simp [hv])]
    have hfile1 : ∀ f, ((processLibrary gen dirOf version s o).fs.fileContent
        bindings_path f).isSome = true ↔
        (f = o.output ∨ (s.fs.fileContent bindings_path f).isSome = true) := by
      intro f
      rw [hstep]
      simp only
      rw [FS.fileContent_setFile, FS.fileContent_setFile]
      by_cases hf : f = "__init__.py"
      · subst hf
        rw [if_pos ⟨rfl, rfl⟩]
        have : (s.fs.fileContent bindings_path "__init__.py").isSome = true := by
          rw [hman]
          rfl
        simp [this]
      · rw [if_neg (fun hc2 => hf hc2.2.symm)]
        by_cases hf2 : f = o.output
        · rw [if_pos ⟨rfl, hf2.symm⟩]
          simp [hf2]
        · rw [if_neg (fun hc2 => hf2 hc2.2.symm)]
          simp [hf2]
    rw [List.foldl_cons]
    obtain ⟨ihgen, ihfile, ihman, ihinit⟩ :=
      ih (processLibrary gen dirOf version s o) h1 hv1 hman1 hok
    refine ⟨?_, ?_, ?_, ?_⟩
    · rw [ihgen, hgen1]
      simp
    · intro f
      rw [ihfile f, hfile1 f]
      simp only [List.map_cons, List.mem_cons]
      tauto
    · rw [ihman, hgen1]
      simp
    · rw [ihinit, hinit1, hgen1]
      rw [List.length_cons, List.range_succ_eq_map]
      simp only [List.map_cons, List.map_map, List.append_assoc, List.singleton_append,
        List.take_succ_cons, Function.comp]
      simp [Function.comp_def]

/-! Lemmas about cleanup. -/

theorem fileContent_filter_ne {dirs : List String} {files : List ((String × String) × String)}
    {d d2 : String} (hne : d2 ≠ d) (f : String) :
    (FS.mk dirs (files.filter (fun e => e.1.1 != d))).fileContent d2 f
      = (FS.mk dirs files).fileContent d2 f := by
  unfold FS.fileContent
  rw [find?_filter_comm]
  have hpred : (fun (e : (String × String) × String) =>
      (e.1.1 != d) && (e.1.1 == d2 && e.1.2 == f)) =
      (fun (e : (String × String) × String) => e.1.1 == d2 && e.1.2 == f) := by
    funext e
    by_cases h : e.1.1 = d2
    · have : (e.1.1 != d) = true := by
        simp [h, hne]
      rw [this, Bool.true_and]
    · have : (e.1.1 == d2) = false := by
        simp [h]
      rw [this, Bool.false_and, Bool.and_false]
  rw [hpred]

theorem fileContent_filter_same {dirs : List String}
    {files : List ((String × String) × String)} {d : String} (f : String) :
    (FS.mk dirs (files.filter (fun e => e.1.1 != d))).fileContent d f = none := by
  unfold FS.fileContent
  rw [find?_filter_comm]
  have hpred : (fun (e : (String × String) × String) =>
      (e.1.1 != d) && (e.1.1 == d && e.1.2 == f)) =
      (fun (_ : (String × String) × String) => false) := by
    funext e
    by_cases h : e.1.1 = d <;> simp [h]
  rw [hpred]
  rw [List.find?_eq_none.mpr (fun a _ => by simp)]
  rfl

theorem removeIfPresent_fileContent_other {fs : FS} {d d2 : String} (hne : d2 ≠ d)
    (f : String) :
    (fs.removeIfPresent d).fileContent d2 f = fs.fileContent d2 f := by
  unfold FS.removeIfPresent FS.rmtree
  by_cases h : fs.dirExists d
  · rw [if_pos h]
    exact fileContent_filter_ne hne f
  · rw [if_neg h]

theorem removeIfPresent_fileContent_of_exists {fs : FS} {d : String}
    (h : fs.dirExists d = true) (f : String) :
    (fs.removeIfPresent d).fileContent d f = none := by
  unfold FS.removeIfPresent FS.rmtree
  rw [if_pos h]
  exact fileContent_filter_same f

theorem removeIfPresent_fileContent_of_not_exists {fs : FS} {d : String}
    (h : fs.dirExists d = false) (f : String) :
    (fs.removeIfPresent d).fileContent d f = fs.fileContent d f := by
  unfold FS.removeIfPresent FS.rmtree
  rw [if_neg (by simp [h])]

theorem removeIfPresent_dirExists_other {fs : FS} {d d2 : String} (hne : d2 ≠ d) :
    (fs.removeIfPresent d).dirExists d2 = fs.dirExists d2 := by
  unfold FS.removeIfPresent FS.rmtree
  by_cases h : fs.dirExists d
  · rw [if_pos h]
    unfold FS.dirExists
    simp only [List.elem_eq_mem, decide_eq_decide]
    exact List.mem_erase_of_ne hne
  · rw [if_neg h]

/-- cleanup_bindings_dir never raises: the only uncaught directory removal
(the rmtree of a pre-existing bindings directory) is guarded by the failed
makedirs, and the removals of the local and cached directories catch all
exceptions. -/
theorem cleanup_bindings_dir_total (fs : FS) :
    ∃ fs2, cleanup_bindings_dir fs = .ok fs2 := by
  unfold cleanup_bindings_dir FS.makedirs FS.rmtree
  by_cases h : fs.dirExists bindings_path
  · rw [if_pos h]
    simp only [if_pos h]
    exact ⟨_, rfl⟩
  · rw [if_neg h]
    exact ⟨_, rfl⟩

theorem cleanup_ok_cases {fs fs1 : FS} (h : cleanup_bindings_dir fs = .ok fs1) :
    (fs.dirExists bindings_path = false ∧
      fs1 = ((FS.mk (bindings_path :: fs.dirs) fs.files).removeIfPresent
        local_bindings_path).removeIfPresent cached_bindings_path) ∨
    (fs.dirExists bindings_path = true ∧
      fs1 = ((FS.mk (fs.dirs.erase bindings_path)
          (fs.files.filter (fun e => e.1.1 != bindings_path))).removeIfPresent
        local_bindings_path).removeIfPresent cached_bindings_path) := by
  unfold cleanup_bindings_dir FS.makedirs FS.rmtree at h
  by_cases hd : fs.dirExists bindings_path
  · rw [if_pos hd] at h
    simp only [if_pos hd, Except.ok.injEq] at h
    exact Or.inr ⟨hd, h.symm⟩
  · rw [if_neg hd] at h
    simp only [Except.ok.injEq] at h
    exact Or.inl ⟨by simpa using hd, h.symm⟩

/-- Cleanup leaves no file in the bindings directory, provided (as on any
real filesystem) no file was recorded under a bindings directory that does
not exist. -/
theorem cleanup_bindings_files_none {fs fs1 : FS}
    (hwf : fs.dirExists bindings_path = false → ∀ f, fs.fileContent bindings_path f = none)
    (h : cleanup_bindings_dir fs = .ok fs1) :
    ∀ f, fs1.fileContent bindings_path f = none := by
  intro f
  have hb_loc : bindings_path ≠ local_bindings_path := by decide
  have hb_cache : bindings_path ≠ cached_bindings_path := by decide
  rcases cleanup_ok_cases h with ⟨hd, rfl⟩ | ⟨hd, rfl⟩
  · rw [removeIfPresent_fileContent_other hb_cache,
      removeIfPresent_fileContent_other hb_loc]
    exact hwf hd f
  · rw [removeIfPresent_fileContent_other hb_cache,
      removeIfPresent_fileContent_other hb_loc]
    exact fileContent_filter_same f

theorem removeIfPresent_removes {fs : FS} (d : String)
    (hfiles : fs.dirExists d = false → ∀ f, fs.fileContent d f = none) :
    ∀ f, (fs.removeIfPresent d).fileContent d f = none := by
  intro f
  rcases h : fs.dirExists d with - | -
  · rw [removeIfPresent_fileContent_of_not_exists h]
    exact hfiles h f
  · exact removeIfPresent_fileContent_of_exists h f

/-- Cleanup leaves no file in the cache directory, provided no file was
recorded under a cache directory that does not exist. -/
theorem cleanup_cached_files_none {fs fs1 : FS}
    (hwf : fs.dirExists cached_bindings_path = false →
      ∀ f, fs.fileContent cached_bindings_path f = none)
    (h : cleanup_bindings_dir fs = .ok fs1) :
    ∀ f, fs1.fileContent cached_bindings_path f = none := by
  have hc_loc : cached_bindings_path ≠ local_bindings_path := by decide
  have hc_bind : cached_bindings_path ≠ bindings_path := by decide
  rcases cleanup_ok_cases h with ⟨hd, rfl⟩ | ⟨hd, rfl⟩
  · apply removeIfPresent_removes
    intro hnd f
    rw [removeIfPresent_fileContent_other hc_loc]
    rw [removeIfPresent_dirExists_other hc_loc] at hnd
    have hcons : (FS.mk (bindings_path :: fs.dirs) fs.files).dirExists cached_bindings_path
        = fs.dirExists cached_bindings_path := by
      unfold FS.dirExists
      simp [List.contains_cons, hc_bind]
    rw [hcons] at hnd
    exact hwf hnd f
  · apply removeIfPresent_removes
    intro hnd f
    rw [removeIfPresent_fileContent_other hc_loc]
    rw [removeIfPresent_dirExists_other hc_loc] at hnd
    have hers : (FS.mk (fs.dirs.erase bindings_path)
          (fs.files.filter (fun e => e.1.1 != bindings_path))).dirExists cached_bindings_path
        = fs.dirExists cached_bindings_path := by
      unfold FS.dirExists
      simp only [List.elem_eq_mem, decide_eq_decide]
      exact List.mem_erase_of_ne hc_bind
    rw [hers] at hnd
    rw [fileContent_filter_ne hc_bind]
    exact hwf hnd f

/-! Lemmas about symbol-map lookups and dependency resolution. -/

theorem lookupSym_cons (k0 : String) (v : List String) (sm : SymbolMap) (k : String) :
    lookupSym ((k0, v) :: sm) k = if k0 = k then some v else lookupSym sm k := by
  unfold lookupSym
  by_cases h : k0 = k
  · subst h
    simp [List.find?]
  · have hb : (k0 == k) = false := by
      simp [h]
    simp [List.find?, hb, h]

theorem collectKnownNames_ok_of_all {sm : SymbolMap} {mods : List String}
    (h : ∀ m ∈ mods, (lookupSym sm m).isSome = true) :
    ∃ okn, collectKnownNames sm mods = .ok okn := by
  induction mods with
  | nil => exact ⟨[], rfl⟩
  | cons m rest ih =>
    have hm := h m (by simp)
    rcases hl : lookupSym sm m with - | syms
    · rw [hl] at hm
      exact absurd hm (by simp)
    · obtain ⟨okn, hok⟩ := ih (fun m2 hm2 => h m2 (by simp [hm2]))
      refine ⟨syms ++ okn, ?_⟩
      unfold collectKnownNames
      rw [hl, hok]

theorem collectKnownNames_error_of_missing {sm : SymbolMap} {mods : List String}
    (h : ∃ m, m ∈ mods ∧ lookupSym sm m = none) :
    ∃ m, m ∈ mods ∧ lookupSym sm m = none ∧
      collectKnownNames sm mods = .error (.keyError m) := by
  induction mods with
  | nil =>
    obtain ⟨m, hm, -⟩ := h
    exact absurd hm (by simp)
  | cons m0 rest ih =>
    rcases hl : lookupSym sm m0 with - | syms
    · refine ⟨m0, by simp, hl, ?_⟩
      unfold collectKnownNames
      rw [hl]
    · obtain ⟨m, hm, hnone⟩ := h
      rcases List.mem_cons.mp hm with rfl | hm2
      · rw [hl] at hnone
        exact absurd hnone (by simp)
      · obtain ⟨m2, hmem2, hnone2, herr2⟩ := ih ⟨m, hm2, hnone⟩
        refine ⟨m2, by simp [hmem2], hnone2, ?_⟩
        unfold collectKnownNames
        rw [hl, herr2]

theorem processLibrary_keyError_eq {gen : LibOptions → Option String}
    {dirOf : String → List String} {version : String} {s : RunState} {opts : LibOptions}
    {e : PyErr} (hs : s.error = none)
    (hc : collectKnownNames s.symbolMap opts.modules = .error e) :
    processLibrary gen dirOf version s opts = { s with error := some e } := by
  unfold processLibrary
  rw [hs, hc]

theorem processLibrary_gen_none_eq {gen : LibOptions → Option String}
    {dirOf : String → List String} {version : String} {s : RunState} {opts : LibOptions}
    {okn : List String} (hs : s.error = none)
    (hc : collectKnownNames s.symbolMap opts.modules = .ok okn)
    (hg : gen { opts with other_known_names := okn } = none) :
    processLibrary gen dirOf version s opts =
      { s with calls := s.calls ++ [{ opts with other_known_names := okn }],
               error := some (.genError opts.brlcad_lib_name) } := by
  unfold processLibrary
  rw [hs, hc]
  simp only [hg]

theorem processLibrary_no_keyError {gen : LibOptions → Option String}
    {dirOf : String → List String} {version : String} {s : RunState} {opts : LibOptions}
    {okn : List String} (hs : s.error = none)
    (hc : collectKnownNames s.symbolMap opts.modules = .ok okn) :
    ∀ k, (processLibrary gen dirOf version s opts).error ≠ some (.keyError k) := by
  intro k
  rcases hg : gen { opts with other_known_names := okn } with - | content
  · rw [processLibrary_gen_none_eq hs hc hg]
    simp
  · rcases hd : s.fs.dirExists bindings_path with - | -
    · have hw : s.fs.writeFile bindings_path opts.output content =
          .error (.ioError (bindings_path ++ "/" ++ opts.output)) := by
        unfold FS.writeFile
        rw [if_neg (by simp [hd])]
      have : processLibrary gen dirOf version s opts =
          { s with calls := s.calls ++ [{ opts with other_known_names := okn }],
                   error := some (.ioError (bindings_path ++ "/" ++ opts.output)) } := by
        unfold processLibrary
        rw [hs, hc]
        simp only [hg]
        rw [hw]
      rw [this]
      simp
    · rw [processLibrary_ok_eq hs hc hg hd]
      simp

/-- Boolean rendering of the intended configuration discipline: every library
lists only dependency modules that occur earlier in the library list. -/
def depOrdered (seen : List String) : List LibOptions → Bool
  | [] => true
  | o :: rest =>
    (o.modules.all (fun m => seen.contains m)) &&
      depOrdered (seen ++ [o.brlcad_lib_name]) rest

theorem loop_no_keyError {gen : LibOptions → Option String}
    {dirOf : String → List String} {version : String} :
    ∀ (libs : List LibOptions) (seen : List String) (s : RunState),
    (∀ k, s.error ≠ some (.keyError k)) →
    (∀ m, seen.contains m = true → (lookupSym s.symbolMap m).isSome = true) →
    depOrdered seen libs = true →
    ∀ k, (List.foldl (processLibrary gen dirOf version) s libs).error
      ≠ some (.keyError k) := by
  intro libs
  induction libs with
  | nil => exact fun seen s hs hseen hdep k => hs k
  | cons o l ih =>
    intro seen s hs hseen hdep k
    rw [List.foldl_cons]
    unfold depOrdered at hdep
    rw [Bool.and_eq_true] at hdep
    obtain ⟨hdep1, hdep2⟩ := hdep
    rcases hserr : s.error with - | e
    · have hall : ∀ m ∈ o.modules, (lookupSym s.symbolMap m).isSome = true := by
        intro m hm
        exact hseen m (by
          rw [List.all_eq_true] at hdep1
          exact hdep1 m hm)
      obtain ⟨okn, hc⟩ := collectKnownNames_ok_of_all hall
      rcases h1 : (processLibrary gen dirOf version s o).error with - | e1
      · obtain ⟨okn2, content, hc2, hg2, hd2⟩ := processLibrary_ok_inv hserr h1
        have hstep := @processLibrary_ok_eq gen dirOf version s o okn2 content hserr hc2 hg2 hd2
        refine ih (seen ++ [o.brlcad_lib_name]) _ (by rw [h1]; simp) ?_ hdep2 k
        intro m hm
        rw [hstep]
        simp only
        rw [lookupSym_cons]
        by_cases hme : o.brlcad_lib_name = m
        · rw [if_pos hme]
          rfl
        · rw [if_neg hme]
          apply hseen
          revert hm
          simp only [List.contains_eq_any_beq, List.any_append, Bool.or_eq_true,
            List.any_cons, List.any_nil, Bool.or_false]
          rintro (h2 | h2)
          · exact h2
          · exfalso
            rw [beq_iff_eq] at h2
            exact hme h2.symm
      · rw [foldl_processLibrary_error l h1, h1]
        intro hcontra
        rw [Option.some.injEq] at hcontra
        subst hcontra
        exact processLibrary_no_keyError hserr hc k h1
    · rw [processLibrary_error hserr, foldl_processLibrary_error l hserr, hserr]
      intro hcontra
      rw [Option.some.injEq] at hcontra
      subst hcontra
      exact hs _ hserr

/-- On an error-free stretch of the loop, a library name is in the symbol map
afterwards exactly when it was generated in the stretch or was already
present. -/
theorem loop_symbolMap {gen : LibOptions → Option String}
    {dirOf : String → List String} {version : String} :
    ∀ (libs : List LibOptions) (s : RunState),
    s.error = none →
    (List.foldl (processLibrary gen dirOf version) s libs).error = none →
    ∀ m, ((lookupSym (List.foldl (processLibrary gen dirOf version) s libs).symbolMap
        m).isSome = true ↔
      (m ∈ libs.map (fun o => o.brlcad_lib_name) ∨ (lookupSym s.symbolMap m).isSome = true)) := by
  intro libs
  induction libs with
  | nil =>
    intro s hs hok m
    simp
  | cons o l ih =>
    intro s hs hok m
    rw [List.foldl_cons] at hok ⊢
    have h1 : (processLibrary gen dirOf version s o).error = none := by
      rcases h : (processLibrary gen dirOf version s o).error with - | e
      · rfl
      · rw [foldl_processLibrary_error l h, h] at hok
        exact Option.noConfusion hok
    obtain ⟨okn, content, hc, hg, hd⟩ := processLibrary_ok_inv hs h1
    have hstep := @processLibrary_ok_eq gen dirOf version s o okn content hs hc hg hd
    rw [ih _ h1 hok m, hstep]
    simp only [List.map_cons, List.mem_cons]
    rw [lookupSym_cons]
    by_cases hme : o.brlcad_lib_name = m
    · simp [hme]
    · rw [if_neg hme]
      constructor
      · rintro (h2 | h2)
        · exact Or.inl (Or.inr h2)
        · exact Or.inr h2
      · rintro ((h2 | h2) | h2)
        · exact absurd h2.symm hme
        · exact Or.inl h2
        · exact Or.inr h2

theorem FS.copytree_eq_error {fs : FS} {src dst : String} {e : PyErr}
    (h : fs.copytree src dst = .error e) :
    e = .osError src ∨ e = .osError dst := by
  unfold FS.copytree at h
  by_cases hsrc : fs.dirExists src
  · rw [if_pos hsrc] at h
    by_cases hdst : fs.dirExists dst
    · rw [if_pos hdst] at h
      simp only [Except.error.injEq] at h
      exact Or.inr h.symm
    · rw [if_neg hdst] at h
      exact absurd h (by simp)
  · rw [if_neg hsrc] at h
    simp only [Except.error.injEq] at h
    exact Or.inl h.symm

/-! Structure lemmas for main. -/

theorem main_false_eq (libs : List LibOptions) (version : String)
    (gen : LibOptions → Option String) (dirOf : String → List String) (fs : FS) :
    main false libs version gen dirOf fs =
      match cleanup_bindings_dir fs with
      | .error e => initState fs (some e)
      | .ok fs1 =>
        let s := List.foldl (processLibrary gen dirOf version) (initState fs1 none) libs
        match s.error with
        | some _ => s
        | none =>
          match s.fs.copytree bindings_path cached_bindings_path with
          | .error e => { s with error := some e }
          | .ok fs2 => { s with fs := fs2 } := by
  unfold main
  rw [if_neg]
  simp

theorem main_cached_eq (libs : List LibOptions) (version : String)
    (gen : LibOptions → Option String) (dirOf : String → List String) (fs : FS)
    (hflag : fs.dirExists cached_bindings_path = true) :
    main true libs version gen dirOf fs =
      match fs.copytree cached_bindings_path bindings_path with
      | .error e => initState fs (some e)
      | .ok fs1 => initState fs1 none := by
  unfold main
  rw [if_pos]
  rw [hflag]
  rfl

theorem main_false_ok_inv {libs : List LibOptions} {version : String}
    {gen : LibOptions → Option String} {dirOf : String → List String} {fs : FS}
    (h : (main false libs version gen dirOf fs).error = none) :
    ∃ fs1 fs2,
      cleanup_bindings_dir fs = .ok fs1 ∧
      (List.foldl (processLibrary gen dirOf version) (initState fs1 none) libs).error
        = none ∧
      (List.foldl (processLibrary gen dirOf version) (initState fs1 none) libs).fs.copytree
          bindings_path cached_bindings_path = .ok fs2 ∧
      main false libs version gen dirOf fs =
        { List.foldl (processLibrary gen dirOf version) (initState fs1 none) libs with
          fs := fs2 } := by
  rw [main_false_eq] at h ⊢
  obtain ⟨fs1, hclean⟩ := cleanup_bindings_dir_total fs
  rw [hclean] at h ⊢
  simp only at h ⊢
  rcases hserr : (List.foldl (processLibrary gen dirOf version) (initState fs1 none)
      libs).error with - | e
  · simp only [hserr] at h ⊢
    rcases hcopy : (List.foldl (processLibrary gen dirOf version)
        (initState fs1 none) libs).fs.copytree bindings_path cached_bindings_path
        with e2 | fs2
    · simp only [hcopy] at h
      exact absurd h (by simp)
    · simp only [hcopy] at h ⊢
      refine ⟨fs1, fs2, rfl, hserr, hcopy, ?_⟩
      rw [hserr]
  · simp only [hserr] at h
    exact absurd h (by simp)

/-- Characterization of a complete, successful run of the generation loop
from a clean starting state (empty accumulators, no files yet in the bindings
directory): the accumulator ends as the version marker followed by the
configured names, the bindings directory holds exactly the wrapper outputs
plus the manifest, the manifest lists the version marker first, and one
manifest write is recorded per library with the expected export lists. -/
theorem run_loop_char (gen : LibOptions → Option String) (dirOf : String → List String)
    (version : String) (libs : List LibOptions) (fs1 : FS)
    (hne : libs ≠ [])
    (hBV : versionName ∉ libs.map (fun o => o.brlcad_lib_name))
    (hfiles : ∀ f, fs1.fileContent bindings_path f = none)
    (hok : (List.foldl (processLibrary gen dirOf version) (initState fs1 none)
      libs).error = none) :
    (List.foldl (processLibrary gen dirOf version) (initState fs1 none) libs).generated
        = versionName :: libs.map (fun o => o.brlcad_lib_name)
    ∧ (∀ f, ((List.foldl (processLibrary gen dirOf version) (initState fs1 none)
          libs).fs.fileContent bindings_path f).isSome = true ↔
        (f ∈ libs.map (fun o => o.output) ∨ f = "__init__.py"))
    ∧ (List.foldl (processLibrary gen dirOf version) (initState fs1 none)
          libs).fs.fileContent bindings_path "__init__.py"
        = some (initContents (versionName :: libs.map (fun o => o.brlcad_lib_name)) version)
    ∧ (List.foldl (processLibrary gen dirOf version) (initState fs1 none) libs).initWrites
        = (List.range libs.length).map
            (fun k => versionName :: ((libs.take (k+1)).map (fun o => o.brlcad_lib_name))) := by
  rcases libs with - | ⟨o, l⟩
  · exact absurd rfl hne
  · rw [List.foldl_cons] at hok ⊢
    have hs : (initState fs1 none).error = none := rfl
    have h1 : (processLibrary gen dirOf version (initState fs1 none) o).error = none := by
      rcases h : (processLibrary gen dirOf version (initState fs1 none) o).error with - | e
      · rfl
      · rw [foldl_processLibrary_error l h, h] at hok
        exact Option.noConfusion hok
    obtain ⟨okn, content, hc, hg, hd⟩ := processLibrary_ok_inv hs h1
    have hstep := @processLibrary_ok_eq gen dirOf version (initState fs1 none) o okn content
      hs hc hg hd
    have honame : o.brlcad_lib_name ≠ versionName := by
      intro hcontra
      exact hBV (by simp [hcontra])
    have hadd : addVersionName ((initState fs1 none).generated ++ [o.brlcad_lib_name])
        = [versionName, o.brlcad_lib_name] := by
      show addVersionName ([] ++ [o.brlcad_lib_name]) = _
      rw [List.nil_append, addVersionName_of_not_mem (by simp [Ne.symm honame])]
    have hgen1 : (processLibrary gen dirOf version (initState fs1 none) o).generated
        = [versionName, o.brlcad_lib_name] := by
      rw [hstep]
      exact hadd
    have hv1 : versionName ∈ (processLibrary gen dirOf version (initState fs1 none)
        o).generated := by
      rw [hgen1]
      simp
    have hman1 : (processLibrary gen dirOf version (initState fs1 none) o).fs.fileContent
        bindings_path "__init__.py" = some (initContents
          (processLibrary gen dirOf version (initState fs1 none) o).generated version) := by
      rw [hstep]
      simp only
      rw [hadd, FS.fileContent_setFile_same]
    obtain ⟨ihgen, ihfile, ihman, ihinit⟩ :=
      loop_char gen dirOf version l _ h1 hv1 hman1 hok
    have hfile1 : ∀ f, ((processLibrary gen dirOf version (initState fs1 none)
        o).fs.fileContent bindings_path f).isSome = true ↔
        (f = o.output ∨ f = "__init__.py") := by
      intro f
      rw [hstep]
      simp only
      rw [FS.fileContent_setFile, FS.fileContent_setFile]
      by_cases hf : f = "__init__.py"
      · rw [if_pos ⟨rfl, hf.symm⟩]
        simp [hf]
      · rw [if_neg (fun hc2 => hf hc2.2.symm)]
        by_cases hf2 : f = o.output
        · rw [if_pos ⟨rfl, hf2.symm⟩]
          simp [hf2]
        · rw [if_neg (fun hc2 => hf2 hc2.2.symm)]
          show ((fs1.fileContent bindings_path f).isSome = true) ↔ _
          rw [hfiles f]
          simp [hf, hf2]
    refine ⟨?_, ?_, ?_, ?_⟩
    · rw [ihgen, hgen1]
      simp
    · intro f
      rw [ihfile f, hfile1 f]
      simp only [List.map_cons, List.mem_cons]
      tauto
    · rw [ihman, hgen1]
      simp
    · rw [ihinit, hgen1]
      have hinit1 : (processLibrary gen dirOf version (initState fs1 none) o).initWrites
          = [[versionName, o.brlcad_lib_name]] := by
        rw [hstep]
        simp only
        rw [hadd]
        rfl
      rw [hinit1]
      rw [List.length_cons, List.range_succ_eq_map]
      simp only [List.map_cons, List.map_map, List.take_succ_cons, Function.comp]
      simp [Function.comp_def]

theorem cleanup_dirExists_bindings_of_fresh {fs fs1 : FS}
    (hb : fs.dirExists bindings_path = false)
    (h : cleanup_bindings_dir fs = .ok fs1) :
    fs1.dirExists bindings_path = true := by
  have hb_loc : bindings_path ≠ local_bindings_path := by decide
  have hb_cache : bindings_path ≠ cached_bindings_path := by decide
  rcases cleanup_ok_cases h with ⟨hd, rfl⟩ | ⟨hd, rfl⟩
  · rw [removeIfPresent_dirExists_other hb_cache, removeIfPresent_dirExists_other hb_loc]
    unfold FS.dirExists
    simp [List.contains_cons]
  · rw [hd] at hb
    exact Bool.noConfusion hb

/-- Characterization of a successful cache-disabled run of main: the final
filesystem holds, in the bindings directory, exactly the per-library wrapper
outputs plus the manifest, the manifest lists the version marker followed by
the configured library names in order, and one manifest write happened per
library. -/
theorem main_run_char (gen : LibOptions → Option String) (dirOf : String → List String)
    (version : String) (libs : List LibOptions) (fs : FS)
    (hne : libs ≠ [])
    (hBV : versionName ∉ libs.map (fun o => o.brlcad_lib_name))
    (hwf : fs.dirExists bindings_path = false → ∀ f, fs.fileContent bindings_path f = none)
    (hok : (main false libs version gen dirOf fs).error = none) :
    (main false libs version gen dirOf fs).generated
        = versionName :: libs.map (fun o => o.brlcad_lib_name)
    ∧ (∀ f, ((main false libs version gen dirOf fs).fs.fileContent bindings_path f).isSome
          = true ↔
        (f ∈ libs.map (fun o => o.output) ∨ f = "__init__.py"))
    ∧ (main false libs version gen dirOf fs).fs.fileContent bindings_path "__init__.py"
        = some (initContents (versionName :: libs.map (fun o => o.brlcad_lib_name)) version)
    ∧ (main false libs version gen dirOf fs).initWrites
        = (List.range libs.length).map
            (fun k => versionName :: ((libs.take (k+1)).map (fun o => o.brlcad_lib_name))) := by
  obtain ⟨fs1, fs2, hclean, hloop, hcopy, hmain⟩ := main_false_ok_inv hok
  have hfiles : ∀ f, fs1.fileContent bindings_path f = none :=
    cleanup_bindings_files_none hwf hclean
  obtain ⟨hgen, hfile, hman, hinit⟩ :=
    run_loop_char gen dirOf version libs fs1 hne hBV hfiles hloop
  have hbc : bindings_path ≠ cached_bindings_path := by decide
  refine ⟨?_, ?_, ?_, ?_⟩
  · rw [hmain]
    exact hgen
  · intro f
    rw [hmain]
    show ((fs2.fileContent bindings_path f).isSome = true) ↔ _
    rw [FS.fileContent_copytree_other hcopy bindings_path f hbc]
    exact hfile f
  · rw [hmain]
    show fs2.fileContent bindings_path "__init__.py" = _
    rw [FS.fileContent_copytree_other hcopy bindings_path "__init__.py" hbc]
    exact hman
  · rw [hmain]
    exact hinit

theorem foldl_prefix_error_none {gen : LibOptions → Option String}
    {dirOf : String → List String} {version : String} {libs : List LibOptions}
    {s : RunState}
    (h : (List.foldl (processLibrary gen dirOf version) s libs).error = none)
    (k : Nat) :
    (List.foldl (processLibrary gen dirOf version) s (libs.take k)).error = none := by
  rcases herr : (List.foldl (processLibrary gen dirOf version) s (libs.take k)).error
      with - | e
  · rfl
  · exfalso
    have hsplit : libs = libs.take k ++ libs.drop k := (List.take_append_drop k libs).symm
    rw [hsplit, List.foldl_append, foldl_processLibrary_error _ herr, herr] at h
    exact Option.noConfusion h

/-! Concrete demonstration configuration used to witness the theorems. -/

/-- Demonstration library options modelling the first configured library. -/
def demoLib1 : LibOptions := ⟨"bu", ["bu.h"], "bu.py", [], []⟩

/-- Demonstration library options for a second library depending on the
first. -/
def demoLib2 : LibOptions := ⟨"rt", ["rt.h"], "rt.py", ["bu"], []⟩

/-- Demonstration generator: always succeeds, producing content that names
the library. -/
def demoGen : LibOptions → Option String := fun o => some ("wrapper " ++ o.brlcad_lib_name)

/-- Demonstration symbol harvest: one symbol derived from the content. -/
def demoDirOf : String → List String := fun c => ["sym " ++ c]

/-- Demonstration starting filesystem: nothing exists yet. -/
def demoFS : FS := FS.mk [] []

deriving instance DecidableEq for Except

/-! The claims. -/

/-- C1: in every completed run of main with the cache-reuse flag unset, over a
valid configuration (a nonempty library list in dependency order, pairwise
distinct output files none of which is the manifest name, and no library
named like the version marker), the bindings directory afterwards contains
exactly one generated wrapper file per configured library plus the
`__init__.py` manifest, and the manifest records the export list
`BRLCAD_VERSION :: l1 :: ... :: ln` in that order. -/
theorem claim_C1 (gen : LibOptions → Option String) (dirOf : String → List String)
    (version : String) (libs : List LibOptions) (fs : FS)
    (hne : libs ≠ [])
    (hBV : versionName ∉ libs.map (fun o => o.brlcad_lib_name))
    (hout : (libs.map (fun o => o.output)).Nodup)
    (hinit : "__init__.py" ∉ libs.map (fun o => o.output))
    (hwf : fs.dirExists bindings_path = false → ∀ f, fs.fileContent bindings_path f = none)
    (hok : (main false libs version gen dirOf fs).error = none) :
    (∀ f, ((main false libs version gen dirOf fs).fs.fileContent bindings_path f).isSome
        = true ↔ f ∈ libs.map (fun o => o.output) ++ ["__init__.py"])
    ∧ (libs.map (fun o => o.output) ++ ["__init__.py"]).Nodup
    ∧ (main false libs version gen dirOf fs).fs.fileContent bindings_path "__init__.py"
        = some (initContents (versionName :: libs.map (fun o => o.brlcad_lib_name))
            version) := by
  obtain ⟨hgen, hfile, hman, hinitw⟩ := main_run_char gen dirOf version libs fs hne hBV hwf hok
  refine ⟨?_, ?_, hman⟩
  · intro f
    rw [hfile f]
    simp [List.mem_append]
  · refine List.Nodup.append hout (by simp) ?_
    intro x hx hmem
    rw [List.mem_singleton] at hmem
    subst hmem
    exact hinit hx

theorem claim_C1_witness :
    ([demoLib1, demoLib2] ≠ ([] : List LibOptions))
    ∧ ((main false [demoLib1, demoLib2] "7.24.0" demoGen demoDirOf demoFS).fs.fileContent
          bindings_path "__init__.py"
        = some (initContents [versionName, "bu", "rt"] "7.24.0")) :=
  ⟨by decide,
    (claim_C1 demoGen demoDirOf "7.24.0" [demoLib1, demoLib2] demoFS (by decide) (by decide)
      (by decide) (by decide) (fun _ f => rfl) (by decide)).2.2⟩

/-- C8: in every completed cache-disabled run, the manifest is written once
after each library's generation pass; the k-th write records the version
marker first (exactly once) followed by the first k library names in
insertion order. -/
theorem claim_C8 (gen : LibOptions → Option String) (dirOf : String → List String)
    (version : String) (libs : List LibOptions) (fs : FS)
    (hne : libs ≠ [])
    (hBV : versionName ∉ libs.map (fun o => o.brlcad_lib_name))
    (hwf : fs.dirExists bindings_path = false → ∀ f, fs.fileContent bindings_path f = none)
    (hok : (main false libs version gen dirOf fs).error = none) :
    (main false libs version gen dirOf fs).initWrites
        = (List.range libs.length).map
            (fun k => versionName :: ((libs.take (k+1)).map (fun o => o.brlcad_lib_name)))
    ∧ (main false libs version gen dirOf fs).initWrites.length = libs.length
    ∧ (∀ w ∈ (main false libs version gen dirOf fs).initWrites,
        w.head? = some versionName ∧ w.count versionName = 1) := by
  obtain ⟨-, -, -, hinitw⟩ := main_run_char gen dirOf version libs fs hne hBV hwf hok
  refine ⟨hinitw, ?_, ?_⟩
  · rw [hinitw]
    simp
  · intro w hw
    rw [hinitw] at hw
    rw [List.mem_map] at hw
    obtain ⟨k, -, rfl⟩ := hw
    refine ⟨rfl, ?_⟩
    rw [List.count_cons_self]
    have hzero : ((libs.take (k+1)).map (fun o => o.brlcad_lib_name)).count versionName
        = 0 := by
      rw [List.count_eq_zero]
      intro hmem
      rw [List.mem_map] at hmem
      obtain ⟨o, ho, hname⟩ := hmem
      exact hBV (List.mem_map.mpr ⟨o, List.take_subset _ _ ho, hname⟩)
    rw [hzero]

theorem claim_C8_witness :
    (main false [demoLib1, demoLib2] "7.24.0" demoGen demoDirOf demoFS).initWrites
      = [[versionName, "bu"], [versionName, "bu", "rt"]] := by
  have h := (claim_C8 demoGen demoDirOf "7.24.0" [demoLib1, demoLib2] demoFS (by decide)
    (by decide) (fun _ f => rfl) (by decide)).1
  rw [h]
  decide

/-- C2 (evaluating the code at the failing input): when the bindings
directory already exists before cleanup, cleanup_bindings_dir deletes it in
the except-branch of makedirs and never recreates it, so immediately after
it returns the directory does not exist — contradicting the claim that it
exists and is empty. -/
theorem claim_C2_bug :
    (FS.mk [bindings_path] []).dirExists bindings_path = true
    ∧ cleanup_bindings_dir (FS.mk [bindings_path] []) = .ok (FS.mk [] [])
    ∧ (FS.mk [] []).dirExists bindings_path = false := by
  decide

/-- C5 (evaluating the code at the failing input): a first cache-disabled run
succeeds and writes the manifest, but the immediately following second run
fails with an IOError while writing the first wrapper file, because cleanup
deleted the bindings directory left by the first run without recreating it;
no second manifest is produced. -/
theorem claim_C5_bug :
    (main false [demoLib1] "7.24.0" demoGen demoDirOf demoFS).error = none
    ∧ (main false [demoLib1] "7.24.0" demoGen demoDirOf demoFS).fs.fileContent
        bindings_path "__init__.py"
      = some (initContents [versionName, "bu"] "7.24.0")
    ∧ (main false [demoLib1] "7.24.0" demoGen demoDirOf
        (main false [demoLib1] "7.24.0" demoGen demoDirOf demoFS).fs).error
      = some (.ioError (bindings_path ++ "/" ++ "bu.py"))
    ∧ (main false [demoLib1] "7.24.0" demoGen demoDirOf
        (main false [demoLib1] "7.24.0" demoGen demoDirOf demoFS).fs).fs.fileContent
        bindings_path "__init__.py" = none := by
  decide

/-- C4: dependency resolution fails closed. First conjunct: at any loop state,
a library listing a dependency module with no symbol-map entry makes the pass
stop with a KeyError naming such a module, before the generator pipeline is
invoked (the call trace is unchanged). Second conjunct: when the
configuration lists every dependency after the library it depends on
(dependency order), no KeyError can surface from a cache-disabled run.
Third conjunct: after an error-free loop, the symbol map has an entry exactly
for the libraries generated in the run, so a missing entry coincides with
"not generated earlier". -/
theorem claim_C4 :
    (∀ (gen : LibOptions → Option String) (dirOf : String → List String)
        (version : String) (s : RunState) (opts : LibOptions),
      s.error = none →
      (∃ m, m ∈ opts.modules ∧ lookupSym s.symbolMap m = none) →
      ∃ m, m ∈ opts.modules ∧ lookupSym s.symbolMap m = none ∧
        (processLibrary gen dirOf version s opts).error = some (.keyError m) ∧
        (processLibrary gen dirOf version s opts).calls = s.calls)
    ∧ (∀ (gen : LibOptions → Option String) (dirOf : String → List String)
        (version : String) (libs : List LibOptions) (fs : FS),
      depOrdered [] libs = true →
      ∀ k, (main false libs version gen dirOf fs).error ≠ some (.keyError k))
    ∧ (∀ (gen : LibOptions → Option String) (dirOf : String → List String)
        (version : String) (libs : List LibOptions) (fs1 : FS),
      (List.foldl (processLibrary gen dirOf version) (initState fs1 none) libs).error
        = none →
      ∀ m, ((lookupSym (List.foldl (processLibrary gen dirOf version)
          (initState fs1 none) libs).symbolMap m).isSome = true ↔
        m ∈ libs.map (fun o => o.brlcad_lib_name))) := by
  refine ⟨?_, ?_, ?_⟩
  · intro gen dirOf version s opts hs hmiss
    obtain ⟨m, hmem, hnone, herr⟩ := collectKnownNames_error_of_missing hmiss
    refine ⟨m, hmem, hnone, ?_, ?_⟩
    · rw [processLibrary_keyError_eq hs herr]
    · rw [processLibrary_keyError_eq hs herr]
  · intro gen dirOf version libs fs hdep k
    rw [main_false_eq]
    obtain ⟨fs1, hclean⟩ := cleanup_bindings_dir_total fs
    rw [hclean]
    simp only
    have hloop := @loop_no_keyError gen dirOf version libs [] (initState fs1 none) (fun k2 => by
        intro hcontra
        exact Option.noConfusion hcontra)
      (fun m hm => by
        exact absurd hm (by simp [List.contains]))
      hdep k
    rcases hserr : (List.foldl (processLibrary gen dirOf version) (initState fs1 none)
        libs).error with - | e
    · simp only [hserr]
      rcases hcopy : (List.foldl (processLibrary gen dirOf version)
          (initState fs1 none) libs).fs.copytree bindings_path cached_bindings_path
          with e2 | fs2
      · simp only [hcopy]
        intro hcontra
        simp only [Option.some.injEq] at hcontra
        rcases FS.copytree_eq_error hcopy with rfl | rfl <;> exact PyErr.noConfusion hcontra
      · simp only [hcopy]
        intro hcontra
        exact Option.noConfusion hcontra
    · simp only [hserr]
      rw [hserr] at hloop
      exact hloop
  · intro gen dirOf version libs fs1 hok m
    rw [loop_symbolMap libs (initState fs1 none) rfl hok m]
    have : lookupSym (initState fs1 none).symbolMap m = none := rfl
    simp [this]

theorem claim_C4_witness :
    (∃ m, m ∈ demoLib2.modules ∧ lookupSym ([] : SymbolMap) m = none ∧
      (processLibrary demoGen demoDirOf "7.24.0" (initState demoFS none)
        demoLib2).error = some (.keyError m) ∧
      (processLibrary demoGen demoDirOf "7.24.0" (initState demoFS none)
        demoLib2).calls = [])
    ∧ (∀ k, (main false [demoLib1, demoLib2] "7.24.0" demoGen demoDirOf demoFS).error
        ≠ some (.keyError k)) :=
  ⟨claim_C4.1 demoGen demoDirOf "7.24.0" (initState demoFS none) demoLib2 rfl
      ⟨"bu", by decide, rfl⟩,
    claim_C4.2.1 demoGen demoDirOf "7.24.0" [demoLib1, demoLib2] demoFS (by decide)⟩

/-- C9: the cleanup step catches every failure of the two best-effort
removals (so cleanup_bindings_dir always returns normally, whatever the
filesystem looks like), while a filesystem error in the cached-install copy
propagates out of main as the run's error. -/
theorem claim_C9 :
    (∀ fs, ∃ fs2, cleanup_bindings_dir fs = .ok fs2)
    ∧ (∀ (libs : List LibOptions) (version : String)
        (gen : LibOptions → Option String) (dirOf : String → List String) (fs : FS),
      fs.dirExists cached_bindings_path = true →
      fs.dirExists bindings_path = true →
      (main true libs version gen dirOf fs).error = some (.osError bindings_path)) := by
  refine ⟨cleanup_bindings_dir_total, ?_⟩
  intro libs version gen dirOf fs hcache hbind
  rw [main_cached_eq libs version gen dirOf fs hcache]
  have hcopy : fs.copytree cached_bindings_path bindings_path
      = .error (.osError bindings_path) := by
    unfold FS.copytree
    rw [if_pos hcache, if_pos hbind]
  rw [hcopy]
  rfl

theorem claim_C9_witness :
    (∃ fs2, cleanup_bindings_dir demoFS = .ok fs2)
    ∧ (main true [] "7.24.0" demoGen demoDirOf
        (FS.mk [cached_bindings_path, bindings_path] [])).error
      = some (.osError bindings_path) :=
  ⟨claim_C9.1 demoFS,
    claim_C9.2 [] "7.24.0" demoGen demoDirOf
      (FS.mk [cached_bindings_path, bindings_path] []) (by decide) (by decide)⟩

/-- C10: generate_init_file returns its library-names argument with the
version marker inserted at position 0 when absent and unchanged when already
present (modelling the in-place mutation of the caller's list); consequently,
in any error-free stretch of a cache-disabled run, the accumulator after
every completed pass k (k at least 1) is exactly the version marker followed
by the first k library names — the marker first and exactly once. -/
theorem claim_C10 :
    (∀ (fs : FS) (names : List String) (v : String), versionName ∉ names →
      (generate_init_file fs names v).1 = versionName :: names)
    ∧ (∀ (fs : FS) (names : List String) (v : String), versionName ∈ names →
      (generate_init_file fs names v).1 = names)
    ∧ (∀ (gen : LibOptions → Option String) (dirOf : String → List String)
        (version : String) (libs : List LibOptions) (fs1 : FS) (k : Nat),
      versionName ∉ libs.map (fun o => o.brlcad_lib_name) →
      (∀ f, fs1.fileContent bindings_path f = none) →
      (List.foldl (processLibrary gen dirOf version) (initState fs1 none) libs).error
        = none →
      1 ≤ k → k ≤ libs.length →
      (List.foldl (processLibrary gen dirOf version) (initState fs1 none)
          (libs.take k)).generated
        = versionName :: ((libs.take k).map (fun o => o.brlcad_lib_name))
      ∧ ((List.foldl (processLibrary gen dirOf version) (initState fs1 none)
          (libs.take k)).generated).count versionName = 1) := by
  refine ⟨?_, ?_, ?_⟩
  · intro fs names v h
    show addVersionName names = versionName :: names
    exact addVersionName_of_not_mem h
  · intro fs names v h
    show addVersionName names = names
    exact addVersionName_of_mem h
  · intro gen dirOf version libs fs1 k hBV hfiles hok hk1 hk2
    have hne : libs.take k ≠ [] := by
      intro hcontra
      have := congrArg List.length hcontra
      rw [List.length_take] at this
      simp only [List.length_nil] at this
      omega
    have hBVk : versionName ∉ (libs.take k).map (fun o => o.brlcad_lib_name) := by
      intro hmem
      rw [List.mem_map] at hmem
      obtain ⟨o, ho, hname⟩ := hmem
      exact hBV (List.mem_map.mpr ⟨o, List.take_subset _ _ ho, hname⟩)
    have hokk := foldl_prefix_error_none hok k
    obtain ⟨hgen, -, -, -⟩ :=
      run_loop_char gen dirOf version (libs.take k) fs1 hne hBVk hfiles hokk
    refine ⟨hgen, ?_⟩
    rw [hgen, List.count_cons_self]
    have hzero : ((libs.take k).map (fun o => o.brlcad_lib_name)).count versionName
        = 0 := List.count_eq_zero.mpr hBVk
    rw [hzero]

theorem claim_C10_witness :
    (generate_init_file demoFS ["bu"] "7.24.0").1 = [versionName, "bu"]
    ∧ (List.foldl (processLibrary demoGen demoDirOf "7.24.0")
        (initState (FS.mk [bindings_path] []) none)
        ([demoLib1, demoLib2].take 1)).generated = [versionName, "bu"] :=
  ⟨claim_C10.1 demoFS ["bu"] "7.24.0" (by decide),
    (claim_C10.2.2 demoGen demoDirOf "7.24.0" [demoLib1, demoLib2]
      (FS.mk [bindings_path] []) 1 (by decide) (fun f => rfl) (by decide)
      (by decide) (by decide)).1⟩

/-- Full computation of a two-library run of the loop where the second
library declares the first as its dependency module and both generator
invocations succeed. -/
theorem loop_two_success (gen : LibOptions → Option String) (dirOf : String → List String)
    (version : String) (fs0 : FS) (o1 o2 : LibOptions) (c1 c2 : String)
    (hd : fs0.dirExists bindings_path = true)
    (hm1 : o1.modules = [])
    (hm2 : o2.modules = [o1.brlcad_lib_name])
    (hn1 : o1.brlcad_lib_name ≠ versionName)
    (hg1 : gen { o1 with other_known_names := [] } = some c1)
    (hg2 : gen { o2 with other_known_names := dirOf c1 } = some c2) :
    List.foldl (processLibrary gen dirOf version) (initState fs0 none) [o1, o2]
      = { fs := (((fs0.setFile bindings_path o1.output c1).setFile bindings_path
              "__init__.py" (initContents [versionName, o1.brlcad_lib_name] version)).setFile
              bindings_path o2.output c2).setFile bindings_path "__init__.py"
              (initContents [versionName, o1.brlcad_lib_name, o2.brlcad_lib_name] version),
          symbolMap := [(o2.brlcad_lib_name, dirOf c2), (o1.brlcad_lib_name, dirOf c1)],
          generated := [versionName, o1.brlcad_lib_name, o2.brlcad_lib_name],
          calls := [{ o1 with other_known_names := [] },
                    { o2 with other_known_names := dirOf c1 }],
          initWrites := [[versionName, o1.brlcad_lib_name],
                         [versionName, o1.brlcad_lib_name, o2.brlcad_lib_name]],
          error := none } := by
  have hc1 : collectKnownNames (initState fs0 none).symbolMap o1.modules = .ok [] := by
    rw [hm1]
    rfl
  have hadd1 : addVersionName ((initState fs0 none).generated ++ [o1.brlcad_lib_name])
      = [versionName, o1.brlcad_lib_name] := by
    show addVersionName ([] ++ [o1.brlcad_lib_name]) = _
    rw [List.nil_append, addVersionName_of_not_mem (by simp [Ne.symm hn1])]
  have hstep1 := @processLibrary_ok_eq gen dirOf version (initState fs0 none) o1 [] c1
    rfl hc1 hg1 hd
  have hstep1b : processLibrary gen dirOf version (initState fs0 none) o1
      = { fs := (fs0.setFile bindings_path o1.output c1).setFile bindings_path
            "__init__.py" (initContents [versionName, o1.brlcad_lib_name] version),
          symbolMap := [(o1.brlcad_lib_name, dirOf c1)],
          generated := [versionName, o1.brlcad_lib_name],
          calls := [{ o1 with other_known_names := [] }],
          initWrites := [[versionName, o1.brlcad_lib_name]],
          error := none } := by
    rw [hstep1, hadd1]
    rfl
  have hc2 : collectKnownNames
      ([(o1.brlcad_lib_name, dirOf c1)] : SymbolMap) o2.modules
      = .ok (dirOf c1) := by
    rw [hm2]
    unfold collectKnownNames lookupSym
    simp [List.find?, collectKnownNames]
  have hstep2 := @processLibrary_ok_eq gen dirOf version
    { fs := (fs0.setFile bindings_path o1.output c1).setFile bindings_path
        "__init__.py" (initContents [versionName, o1.brlcad_lib_name] version),
      symbolMap := [(o1.brlcad_lib_name, dirOf c1)],
      generated := [versionName, o1.brlcad_lib_name],
      calls := [{ o1 with other_known_names := [] }],
      initWrites := [[versionName, o1.brlcad_lib_name]],
      error := none }
    o2 (dirOf c1) c2 rfl hc2 hg2 hd
  show processLibrary gen dirOf version
    (processLibrary gen dirOf version (initState fs0 none) o1) o2 = _
  rw [hstep1b, hstep2]
  rfl

/-- C3: for the two-library configuration where library "b" declares "a" as a
dependency module, a successful fresh run produces the export list
["BRLCAD_VERSION", "a", "b"], and the options passed to the generator for
"b" carried, as other_known_names, exactly the symbol list harvested from
the wrapper module generated and loaded for "a". -/
theorem claim_C3 (gen : LibOptions → Option String) (dirOf : String → List String)
    (version : String) (ca cb : String)
    (hga : gen (LibOptions.mk "a" ["a.h"] "a.py" [] []) = some ca)
    (hgb : gen (LibOptions.mk "b" ["b.h"] "b.py" ["a"] (dirOf ca)) = some cb) :
    (main false [LibOptions.mk "a" ["a.h"] "a.py" [] [],
        LibOptions.mk "b" ["b.h"] "b.py" ["a"] []] version gen dirOf
        (FS.mk [] [])).error = none
    ∧ (main false [LibOptions.mk "a" ["a.h"] "a.py" [] [],
        LibOptions.mk "b" ["b.h"] "b.py" ["a"] []] version gen dirOf
        (FS.mk [] [])).calls
      = [LibOptions.mk "a" ["a.h"] "a.py" [] [],
         LibOptions.mk "b" ["b.h"] "b.py" ["a"] (dirOf ca)]
    ∧ (main false [LibOptions.mk "a" ["a.h"] "a.py" [] [],
        LibOptions.mk "b" ["b.h"] "b.py" ["a"] []] version gen dirOf
        (FS.mk [] [])).generated = [versionName, "a", "b"]
    ∧ (main false [LibOptions.mk "a" ["a.h"] "a.py" [] [],
        LibOptions.mk "b" ["b.h"] "b.py" ["a"] []] version gen dirOf
        (FS.mk [] [])).fs.fileContent bindings_path "__init__.py"
      = some (initContents [versionName, "a", "b"] version) := by
  have hclean : cleanup_bindings_dir (FS.mk [] []) = .ok (FS.mk [bindings_path] []) := by
    decide
  have hloop := loop_two_success gen dirOf version (FS.mk [bindings_path] [])
    (LibOptions.mk "a" ["a.h"] "a.py" [] []) (LibOptions.mk "b" ["b.h"] "b.py" ["a"] [])
    ca cb (by decide) rfl rfl (by decide) hga hgb
  refine ⟨?_, ?_, ?_, ?_⟩
  · rw [main_false_eq, hclean]
    simp only
    rw [hloop]
    rfl
  · rw [main_false_eq, hclean]
    simp only
    rw [hloop]
    rfl
  · rw [main_false_eq, hclean]
    simp only
    rw [hloop]
    rfl
  · rw [main_false_eq, hclean]
    simp only
    rw [hloop]
    rfl

theorem claim_C3_witness :
    (main false [LibOptions.mk "a" ["a.h"] "a.py" [] [],
        LibOptions.mk "b" ["b.h"] "b.py" ["a"] []] "7.24.0" demoGen demoDirOf
        (FS.mk [] [])).calls
      = [LibOptions.mk "a" ["a.h"] "a.py" [] [],
         LibOptions.mk "b" ["b.h"] "b.py" ["a"] ["sym wrapper a"]] :=
  (claim_C3 demoGen demoDirOf "7.24.0" "wrapper a" "wrapper b" rfl rfl).2.1

/-- Full computation of a three-library run of the loop where the generator
pipeline fails on the second library: the first library's artifacts and
manifest are on disk, both the first and second passes were invoked, the
third never runs, and the loop state carries the generator error. -/
theorem loop_fail_second (gen : LibOptions → Option String) (dirOf : String → List String)
    (version : String) (fs0 : FS) (o1 o2 o3 : LibOptions) (c1 : String)
    (hd : fs0.dirExists bindings_path = true)
    (hm1 : o1.modules = [])
    (hm2 : o2.modules = [])
    (hn1 : o1.brlcad_lib_name ≠ versionName)
    (hg1 : gen { o1 with other_known_names := [] } = some c1)
    (hg2 : gen { o2 with other_known_names := [] } = none) :
    List.foldl (processLibrary gen dirOf version) (initState fs0 none) [o1, o2, o3]
      = { fs := (fs0.setFile bindings_path o1.output c1).setFile bindings_path
            "__init__.py" (initContents [versionName, o1.brlcad_lib_name] version),
          symbolMap := [(o1.brlcad_lib_name, dirOf c1)],
          generated := [versionName, o1.brlcad_lib_name],
          calls := [{ o1 with other_known_names := [] },
                    { o2 with other_known_names := [] }],
          initWrites := [[versionName, o1.brlcad_lib_name]],
          error := some (.genError o2.brlcad_lib_name) } := by
  have hc1 : collectKnownNames (initState fs0 none).symbolMap o1.modules = .ok [] := by
    rw [hm1]
    rfl
  have hadd1 : addVersionName ((initState fs0 none).generated ++ [o1.brlcad_lib_name])
      = [versionName, o1.brlcad_lib_name] := by
    show addVersionName ([] ++ [o1.brlcad_lib_name]) = _
    rw [List.nil_append, addVersionName_of_not_mem (by simp [Ne.symm hn1])]
  have hstep1 := @processLibrary_ok_eq gen dirOf version (initState fs0 none) o1 [] c1
    rfl hc1 hg1 hd
  have hstep1b : processLibrary gen dirOf version (initState fs0 none) o1
      = { fs := (fs0.setFile bindings_path o1.output c1).setFile bindings_path
            "__init__.py" (initContents [versionName, o1.brlcad_lib_name] version),
          symbolMap := [(o1.brlcad_lib_name, dirOf c1)],
          generated := [versionName, o1.brlcad_lib_name],
          calls := [{ o1 with other_known_names := [] }],
          initWrites := [[versionName, o1.brlcad_lib_name]],
          error := none } := by
    rw [hstep1, hadd1]
    rfl
  have hc2 : collectKnownNames
      ([(o1.brlcad_lib_name, dirOf c1)] : SymbolMap) o2.modules = .ok [] := by
    rw [hm2]
    rfl
  have hstep2 := @processLibrary_gen_none_eq gen dirOf version
    { fs := (fs0.setFile bindings_path o1.output c1).setFile bindings_path
        "__init__.py" (initContents [versionName, o1.brlcad_lib_name] version),
      symbolMap := [(o1.brlcad_lib_name, dirOf c1)],
      generated := [versionName, o1.brlcad_lib_name],
      calls := [{ o1 with other_known_names := [] }],
      initWrites := [[versionName, o1.brlcad_lib_name]],
      error := none }
    o2 [] rfl hc2 hg2
  show processLibrary gen dirOf version (processLibrary gen dirOf version
    (processLibrary gen dirOf version (initState fs0 none) o1) o2) o3 = _
  rw [hstep1b, hstep2]
  rfl

/-- C7: if the generator pipeline fails on the second of three libraries, the
run reports the failure (main's state carries the generator error), the
third library's pass is never invoked (the call trace names exactly the
first two libraries), and the bindings directory holds only the first
library's wrapper plus the manifest written after the first pass. -/
theorem claim_C7 (gen : LibOptions → Option String) (dirOf : String → List String)
    (version : String) (fs : FS) (o1 o2 o3 : LibOptions) (c1 : String)
    (hb : fs.dirExists bindings_path = false)
    (hbf : ∀ f, fs.fileContent bindings_path f = none)
    (hm1 : o1.modules = [])
    (hm2 : o2.modules = [])
    (hn1 : o1.brlcad_lib_name ≠ versionName)
    (hg1 : gen { o1 with other_known_names := [] } = some c1)
    (hg2 : gen { o2 with other_known_names := [] } = none) :
    (main false [o1, o2, o3] version gen dirOf fs).error
        = some (.genError o2.brlcad_lib_name)
    ∧ (main false [o1, o2, o3] version gen dirOf fs).calls.map
        (fun o => o.brlcad_lib_name) = [o1.brlcad_lib_name, o2.brlcad_lib_name]
    ∧ (∀ f, ((main false [o1, o2, o3] version gen dirOf fs).fs.fileContent
          bindings_path f).isSome = true ↔ (f = o1.output ∨ f = "__init__.py"))
    ∧ (main false [o1, o2, o3] version gen dirOf fs).fs.fileContent bindings_path
        "__init__.py" = some (initContents [versionName, o1.brlcad_lib_name] version) := by
  obtain ⟨fs1, hclean⟩ := cleanup_bindings_dir_total fs
  have hd1 : fs1.dirExists bindings_path = true :=
    cleanup_dirExists_bindings_of_fresh hb hclean
  have hfiles1 : ∀ f, fs1.fileContent bindings_path f = none :=
    cleanup_bindings_files_none (fun _ => hbf) hclean
  have hloop := loop_fail_second gen dirOf version fs1 o1 o2 o3 c1 hd1 hm1 hm2 hn1 hg1 hg2
  have hmain : main false [o1, o2, o3] version gen dirOf fs
      = { fs := (fs1.setFile bindings_path o1.output c1).setFile bindings_path
            "__init__.py" (initContents [versionName, o1.brlcad_lib_name] version),
          symbolMap := [(o1.brlcad_lib_name, dirOf c1)],
          generated := [versionName, o1.brlcad_lib_name],
          calls := [{ o1 with other_known_names := [] },
                    { o2 with other_known_names := [] }],
          initWrites := [[versionName, o1.brlcad_lib_name]],
          error := some (.genError o2.brlcad_lib_name) } := by
    rw [main_false_eq, hclean]
    simp only
    rw [hloop]
  rw [hmain]
  refine ⟨rfl, rfl, ?_, ?_⟩
  · intro f
    show (((fs1.setFile bindings_path o1.output c1).setFile bindings_path
        "__init__.py" (initContents [versionName, o1.brlcad_lib_name] version)).fileContent
        bindings_path f).isSome = true ↔ _
    rw [FS.fileContent_setFile, FS.fileContent_setFile]
    by_cases hf : f = "__init__.py"
    · rw [if_pos ⟨rfl, hf.symm⟩]
      simp [hf]
    · rw [if_neg (fun hc2 => hf hc2.2.symm)]
      by_cases hf2 : f = o1.output
      · rw [if_pos ⟨rfl, hf2.symm⟩]
        simp [hf2]
      · rw [if_neg (fun hc2 => hf2 hc2.2.symm)]
        show ((fs1.fileContent bindings_path f).isSome = true) ↔ _
        rw [hfiles1 f]
        simp [hf, hf2]
  · show ((fs1.setFile bindings_path o1.output c1).setFile bindings_path
        "__init__.py" (initContents [versionName, o1.brlcad_lib_name] version)).fileContent
        bindings_path "__init__.py" = _
    rw [FS.fileContent_setFile_same]

/-- Demonstration generator failing exactly on library lib2. -/
def demoGen7 : LibOptions → Option String :=
  fun o => if o.brlcad_lib_name == "lib2" then none else some ("wrapper " ++ o.brlcad_lib_name)

theorem claim_C7_witness :
    (main false [LibOptions.mk "lib1" ["lib1.h"] "lib1.py" [] [],
        LibOptions.mk "lib2" ["lib2.h"] "lib2.py" [] [],
        LibOptions.mk "lib3" ["lib3.h"] "lib3.py" [] []] "7.24.0" demoGen7 demoDirOf
        demoFS).error = some (.genError "lib2")
    ∧ (main false [LibOptions.mk "lib1" ["lib1.h"] "lib1.py" [] [],
        LibOptions.mk "lib2" ["lib2.h"] "lib2.py" [] [],
        LibOptions.mk "lib3" ["lib3.h"] "lib3.py" [] []] "7.24.0" demoGen7 demoDirOf
        demoFS).calls.map (fun o => o.brlcad_lib_name) = ["lib1", "lib2"] :=
  ⟨(claim_C7 demoGen7 demoDirOf "7.24.0" demoFS
      (LibOptions.mk "lib1" ["lib1.h"] "lib1.py" [] [])
      (LibOptions.mk "lib2" ["lib2.h"] "lib2.py" [] [])
      (LibOptions.mk "lib3" ["lib3.h"] "lib3.py" [] []) "wrapper lib1"
      rfl (fun f => rfl) rfl rfl (by decide) rfl rfl).1,
    (claim_C7 demoGen7 demoDirOf "7.24.0" demoFS
      (LibOptions.mk "lib1" ["lib1.h"] "lib1.py" [] [])
      (LibOptions.mk "lib2" ["lib2.h"] "lib2.py" [] [])
      (LibOptions.mk "lib3" ["lib3.h"] "lib3.py" [] []) "wrapper lib1"
      rfl (fun f => rfl) rfl rfl (by decide) rfl rfl).2.1⟩

/-- After a successful cache-disabled run, the cache directory holds exactly
the contents of the bindings directory (the final copytree mirrors them),
provided the initial filesystem recorded no files under a nonexistent cache
directory. -/
theorem main_false_cache_mirrors {libs : List LibOptions} {version : String}
    {gen : LibOptions → Option String} {dirOf : String → List String} {fs : FS}
    (hwfc : fs.dirExists cached_bindings_path = false →
      ∀ f, fs.fileContent cached_bindings_path f = none)
    (hok : (main false libs version gen dirOf fs).error = none) :
    ∀ f, (main false libs version gen dirOf fs).fs.fileContent cached_bindings_path f
      = (main false libs version gen dirOf fs).fs.fileContent bindings_path f := by
  obtain ⟨fs1, fs2, hclean, hloop, hcopy, hmain⟩ := main_false_ok_inv hok
  intro f
  rw [hmain]
  show fs2.fileContent cached_bindings_path f = fs2.fileContent bindings_path f
  have hcb : cached_bindings_path ≠ bindings_path := by decide
  have hbc : bindings_path ≠ cached_bindings_path := by decide
  have hnone : ∀ g, (List.foldl (processLibrary gen dirOf version) (initState fs1 none)
      libs).fs.fileContent cached_bindings_path g = none := by
    intro g
    rw [(foldl_fs_frame gen dirOf version libs (initState fs1 none)).2
      cached_bindings_path g hcb]
    exact cleanup_cached_files_none hwfc hclean g
  rw [FS.fileContent_copytree_dst hcopy hnone f,
    FS.fileContent_copytree_other hcopy bindings_path f hbc]

/-- C6: cache round-trip. After a successful generation run (whose final step
copies the bindings directory to the cache), a reinstall with the
cache-reuse flag set, starting from a filesystem whose install target is
fresh but whose cache directory carries the first run's cache contents,
skips generation entirely (no generator invocation, no manifest write, no
cleanup: the cache directory survives untouched) and ends with bindings
contents byte-identical to the original generation. -/
theorem claim_C6 (libs : List LibOptions) (version : String)
    (gen : LibOptions → Option String) (dirOf : String → List String) (fs : FS)
    (libs2 : List LibOptions) (version2 : String)
    (gen2 : LibOptions → Option String) (dirOf2 : String → List String) (fs2 : FS)
    (hwfc : fs.dirExists cached_bindings_path = false →
      ∀ f, fs.fileContent cached_bindings_path f = none)
    (hok : (main false libs version gen dirOf fs).error = none)
    (hb2 : fs2.dirExists bindings_path = false)
    (hbf2 : ∀ f, fs2.fileContent bindings_path f = none)
    (hc2 : fs2.dirExists cached_bindings_path = true)
    (hcf2 : ∀ f, fs2.fileContent cached_bindings_path f
      = (main false libs version gen dirOf fs).fs.fileContent cached_bindings_path f) :
    (main true libs2 version2 gen2 dirOf2 fs2).error = none
    ∧ (main true libs2 version2 gen2 dirOf2 fs2).calls = []
    ∧ (main true libs2 version2 gen2 dirOf2 fs2).initWrites = []
    ∧ (∀ f, (main true libs2 version2 gen2 dirOf2 fs2).fs.fileContent bindings_path f
        = (main false libs version gen dirOf fs).fs.fileContent bindings_path f)
    ∧ (main true libs2 version2 gen2 dirOf2 fs2).fs.dirExists cached_bindings_path = true
    ∧ (∀ f, (main true libs2 version2 gen2 dirOf2 fs2).fs.fileContent
          cached_bindings_path f = fs2.fileContent cached_bindings_path f) := by
  have hcb : cached_bindings_path ≠ bindings_path := by decide
  have hcopy : fs2.copytree cached_bindings_path bindings_path
      = .ok { dirs := bindings_path :: fs2.dirs,
              files := ((fs2.files.filter (fun e => e.1.1 == cached_bindings_path)).map
                (fun e => ((bindings_path, e.1.2), e.2))) ++ fs2.files } :=
    FS.copytree_eq_ok hc2 hb2
  have hmain2 : main true libs2 version2 gen2 dirOf2 fs2
      = initState
          { dirs := bindings_path :: fs2.dirs,
            files := ((fs2.files.filter (fun e => e.1.1 == cached_bindings_path)).map
              (fun e => ((bindings_path, e.1.2), e.2))) ++ fs2.files }
          none := by
    rw [main_cached_eq libs2 version2 gen2 dirOf2 fs2 hc2, hcopy]
  rw [hmain2]
  refine ⟨rfl, rfl, rfl, ?_, ?_, ?_⟩
  · intro f
    exact (FS.fileContent_copytree_dst hcopy hbf2 f).trans
      ((hcf2 f).trans (main_false_cache_mirrors hwfc hok f))
  · have h5 : (bindings_path :: fs2.dirs).contains cached_bindings_path = true := by
      rw [List.contains_cons]
      have h3 : fs2.dirs.contains cached_bindings_path = true := hc2
      rw [h3]
      simp
    exact h5
  · intro f
    exact FS.fileContent_copytree_other hcopy cached_bindings_path f hcb

theorem claim_C6_witness :
    (main true [] "7.24.0" demoGen demoDirOf (FS.mk [cached_bindings_path] [])).error
      = none
    ∧ (main true [] "7.24.0" demoGen demoDirOf
        (FS.mk [cached_bindings_path] [])).calls = [] :=
  ⟨(claim_C6 [] "7.24.0" demoGen demoDirOf demoFS [] "7.24.0" demoGen demoDirOf
      (FS.mk [cached_bindings_path] []) (fun _ f => rfl) (by decide) (by decide)
      (fun f => rfl) (by decide) (fun f => rfl)).1,
    (claim_C6 [] "7.24.0" demoGen demoDirOf demoFS [] "7.24.0" demoGen demoDirOf
      (FS.mk [cached_bindings_path] []) (fun _ f => rfl) (by decide) (by decide)
      (fun f => rfl) (by decide) (fun f => rfl)).2.1⟩

end PostInstall
